import Mathlib

/-!
Verification of the wwo-go client library for the WorldWeatherOnline API.

The development shallowly embeds the Go sources:
* `wwo/fetch.go` — the `WWO` client, `fetch`, and the seven
  `Get<ReportType>` operations;
* the data-model file — the report structures (`Local`, `Marine`, …) and
  the custom scalar decoders `Date`, `Time12`, `TimeHMM`.

Go maps `map[string]string` are embedded as association lists with
Go-map update semantics (`setA` replaces the binding in place).  The two
effectful collaborators of the client — the HTTP transport (`http.Get` +
body read) and the structural XML decoder (`xml.Unmarshal`) — are passed
as explicit function parameters, so each `Get<ReportType>` is a pure
function of the client state, the collaborators, and its arguments; the
in-place mutation of the caller's option map is made explicit in the
returned state.  Machine integers are embedded as `Int`/`Nat`
(`time.Duration` is an `Int` count of nanoseconds); `float64` fields are
carried as `Float` (no claim computes with them).
-/

namespace Wwo

/-- A Go `map[string]string`, embedded as an association list whose keys
are distinct (`nodupKeys` below states that well-formedness). -/
abbrev GoMap := List (String × String)

/-- Go map assignment `m[k] = v`: replace the existing binding for `k`
in place, or append a fresh one. -/
def setA : GoMap → String → String → GoMap
  | [], k, v => [(k, v)]
  | (k', v') :: t, k, v => if k' = k then (k, v) :: t else (k', v') :: setA t k v

/-- Well-formedness of the association-list embedding of a Go map:
every key occurs at most once (each entry's key has no binding in the
tail). -/
def nodupKeys : GoMap → Prop
  | [] => True
  | (k, _) :: t => t.lookup k = none ∧ nodupKeys t

instance instDecidableNodupKeys : (m : GoMap) → Decidable (nodupKeys m)
  | [] => .isTrue trivial
  | (k, _) :: t =>
    have : Decidable (nodupKeys t) := instDecidableNodupKeys t
    inferInstanceAs (Decidable (t.lookup k = none ∧ nodupKeys t))

/-- The `for k, v := range query` loop body of `fetch`: insert every
entry of `q` into the accumulating `url.Values`. -/
def foldSet (init : GoMap) (q : GoMap) : GoMap :=
  q.foldl (fun acc kv => setA acc kv.1 kv.2) init

/-- Embeds `type WWO struct { Key string; Insecure bool }` from `wwo/fetch.go`. -/
structure WWO where
  Key : String
  Insecure : Bool

/-- The `url.URL` value assembled by `fetch`, reduced to the components
the code sets: scheme, host, path and the query values (the textual
`Encode`/`String` steps live inside the transport collaborator). -/
structure URL where
  scheme : String
  host : String
  path : String
  query : GoMap

/-- The query values assembled by `fetch` (`wwo/fetch.go` lines 28–34):
`values.Set("key", w.Key)`, then every caller option in turn, then
`values.Set("format", "xml")`. -/
def fetchValues (key : String) (query : GoMap) : GoMap :=
  setA (foldSet (setA [] "key" key) query) "format" "xml"

/-- Embeds `func (w *WWO) fetch(service string, query map[string]string)`: build
the URL (scheme from `Insecure`, fixed host, fixed path affixes around
the service segment, the assembled query values) and hand it to the HTTP
transport collaborator, which returns the response body or a transport
error. -/
def fetch (w : WWO) (http : URL → Except String String)
    (service : String) (query : GoMap) : Except String String :=
  http { scheme := if w.Insecure then "http" else "https"
         host := "api.worldweatheronline.com"
         path := "/premium/v1/" ++ service ++ ".ashx"
         query := fetchValues w.Key query }

/-! ## The data model

The report structures from the data-model file.  Go `int` is `Int`, Go
`uint` is `Nat`, `float64` is `Float`, `*T` is `Option T`, slices are
lists.  `time.Duration` (the representation of `Time12` and `TimeHMM`)
is an `Int` count of nanoseconds.  Go's embedded (anonymous) fields are
embedded here as named fields carrying the embedded type's name, as the
spec's design notes direct for targets without structural embedding.
Every field carries the Go zero value as default, so `{}` is `new(T)`'s
zero value. -/

/-- Embeds `type Time12 time.Duration`: local clock times of tides and
sun/moon rise/set, decoded from 12-hour strings. -/
abbrev Time12 := Int

/-- Embeds `type TimeHMM time.Duration`: local clock times of detailed
conditions, decoded from 3–4-digit integers. -/
abbrev TimeHMM := Int

/-- Embeds `type Date time.Time`: a calendar date with no time-of-day
component (the Go value's clock fields are always zero, so only the
year/month/day components are carried). -/
structure Date where
  year : Nat := 1
  month : Nat := 1
  day : Nat := 1
deriving DecidableEq

/-- Timezone offset information (`type Zone struct`). -/
structure Zone where
  Offset : Float := 0

/-- The echoed request (`type Request struct`). -/
structure Request where
  Query : String := ""
  «Type» : String := ""

/-- An area known to WorldWeatherOnline (`type Area struct`). -/
structure Area where
  Country : String := ""
  Latitude : Float := 0
  Longitude : Float := 0
  Name : String := ""
  Region : String := ""
  Population : Nat := 0
  DistanceMI : Float := 0
  WeatherURL : String := ""
  Zone : Option Zone := none

/-- A range of temperatures (`type TempRange struct`); the Celsius and
Fahrenheit fields are decoded from the distinct payload fields named in
their XML tags (`maxtempC`, `maxtempF`, `mintempC`, `mintempF`). -/
structure TempRange where
  MaxTemp : Int := 0
  MaxTempF : Int := 0
  MinTemp : Int := 0
  MinTempF : Int := 0
deriving DecidableEq

/-- Astronomical events for a day (`type Astronomy struct`). -/
structure Astronomy where
  Moonrise : Time12 := 0
  Moonset : Time12 := 0
  Sunrise : Time12 := 0
  Sunset : Time12 := 0

/-- A tide entry (`type Tide struct`). -/
structure Tide where
  Time : Time12 := 0
  Height : Float := 0
  «Type» : String := ""

/-- Weather conditions at an elevation band (`type LevelCond struct`). -/
structure LevelCond where
  Temp : Int := 0
  TempF : Int := 0
  WindSpeed : Nat := 0
  WindSpeedKnots : Nat := 0
  WindSpeedMeterSec : Nat := 0
  WindSpeedMiles : Nat := 0
  WindDir : Nat := 0
  WindDirCompass : String := ""
  WeatherCode : Nat := 0
  WeatherDesc : String := ""
  WeatherIconUrl : String := ""

/-- Chances of various conditions (`type ForecastChances struct`). -/
structure ForecastChances where
  ChanceFog : Nat := 0
  ChanceFrost : Nat := 0
  ChanceOvercast : Nat := 0
  ChanceRain : Nat := 0
  ChanceSnow : Nat := 0
  ChanceHighTemp : Nat := 0
  ChanceDry : Nat := 0
  ChanceSunshine : Nat := 0
  ChanceThunder : Nat := 0
  ChanceWindy : Nat := 0

/-- Weather conditions common to most reports (`type Condition struct`). -/
structure Condition where
  Time : TimeHMM := 0
  CloudCover : Nat := 0
  DewPoint : Int := 0
  DewPointF : Int := 0
  FeelsLike : Int := 0
  FeelsLikeF : Int := 0
  HeatIndex : Int := 0
  HeatIndexF : Int := 0
  Humidity : Nat := 0
  Precip : Float := 0
  PrecipInches : Float := 0
  Pressure : Nat := 0
  PressureInches : Nat := 0
  Temp : Int := 0
  TempF : Int := 0
  Visibility : Nat := 0
  VisibilityMiles : Nat := 0
  WeatherCode : Nat := 0
  WeatherDesc : String := ""
  WeatherIconUrl : String := ""
  WindChill : Int := 0
  WindChillF : Int := 0
  WindDir : Nat := 0
  WindDirCompass : String := ""
  WindGust : Nat := 0
  WindGustMiles : Nat := 0
  WindSpeed : Nat := 0
  WindSpeedKnots : Nat := 0
  WindSpeedMeterSec : Nat := 0
  WindSpeedMiles : Nat := 0

/-- Current conditions in a Local forecast (`type CurrentCondition
struct`, embedding `Condition`). -/
structure CurrentCondition where
  Condition : Condition := {}
  TempF : Int := 0
  Temp : Int := 0
  Time : Time12 := 0

/-- Conditions in the n-hourly Local forecast (`type ForecastCondition
struct`, embedding `Condition` and `ForecastChances`). -/
structure ForecastCondition where
  Condition : Condition := {}
  ForecastChances : ForecastChances := {}

/-- Conditions in the n-hourly Marine forecast (`type MarineCondition
struct`, embedding `Condition`). -/
structure MarineCondition where
  Condition : Condition := {}
  SigHeight : Float := 0
  SwellHeight : Float := 0
  SwellHeight_ft : Float := 0
  SwellDir : Nat := 0
  SwellDirCompass : String := ""
  SwellPeriod : Float := 0
  WaterTemp : Int := 0
  WaterTemp_F : Int := 0

/-- Conditions for a Ski forecast (`type SkiCondition struct`,
embedding `ForecastChances`). -/
structure SkiCondition where
  ForecastChances : ForecastChances := {}
  Top : LevelCond := {}
  Mid : LevelCond := {}
  Bottom : LevelCond := {}
  CloudCover : Nat := 0
  Visibility : Nat := 0
  VisibilityMiles : Nat := 0
  Pressure : Nat := 0
  PressureInches : Nat := 0
  Snowfall : Float := 0
  FreezeLevel : Nat := 0
  Humidity : Nat := 0
  Precip : Float := 0
  PrecipInches : Float := 0

/-- Climate averages in a Local forecast (`type ClimateAverage struct`). -/
structure ClimateAverage where
  Index : Nat := 0
  Name : String := ""
  MinTemp : Float := 0
  MinTemp_F : Float := 0
  MaxTemp : Float := 0
  MaxTemp_F : Float := 0
  AbsMinTemp : Float := 0
  AbsMinTemp_F : Float := 0
  AbsMaxTemp : Float := 0
  AbsMaxTemp_F : Float := 0
  Temp : Float := 0
  Temp_F : Float := 0
  MaxWindSpeed : Float := 0
  MaxWindSpeed_mph : Float := 0
  MaxWindSpeed_knots : Float := 0
  MaxWindSpeed_ms : Float := 0
  WindSpeed : Float := 0
  WindSpeed_miles : Float := 0
  WindSpeed_knots : Float := 0
  WindSpeed_ms : Float := 0
  WindGust : Float := 0
  WindGust_miles : Float := 0
  WindGust_knots : Float := 0
  WindGust_ms : Float := 0
  DailyRainfall : Float := 0
  DailyRainfall_inch : Float := 0
  MonthlyRainfall : Float := 0
  MonthlyRainfall_inch : Float := 0
  Humidity : Float := 0
  Cloud : Float := 0
  Visibility : Float := 0
  Visibility_miles : Float := 0
  Pressure : Float := 0
  Pressure_inch : Float := 0
  DryDays : Nat := 0
  RainDays : Nat := 0
  SnowDays : Nat := 0
  FogDays : Nat := 0
  ThunderDays : Nat := 0
  UVIndex : Nat := 0
  SunHour : Float := 0

/-- The common fields of weather reports (`type Weather struct`,
embedding `TempRange`). -/
structure Weather where
  TempRange : TempRange := {}
  Astronomy : Astronomy := {}
  Date : Date := {}
  SunHour : Float := 0
  TotalSnow : Float := 0
  UVIndex : Nat := 0
  Condition : List Condition := []

/-- Weather report for a Local forecast (`type ForecastWeather struct`,
embedding `Weather` and shadowing its `Condition` field). -/
structure ForecastWeather where
  Weather : Weather := {}
  Condition : List ForecastCondition := []

/-- Weather report for a Marine forecast (`type MarineWeather struct`). -/
structure MarineWeather where
  Weather : Weather := {}
  Condition : List MarineCondition := []
  Tide : List Tide := []

/-- Weather report for a Ski forecast (`type SkiWeather struct`). -/
structure SkiWeather where
  Weather : Weather := {}
  ChanceSnow : Nat := 0
  TotalSnow : Float := 0
  Top : TempRange := {}
  Mid : TempRange := {}
  Bottom : TempRange := {}
  Condition : List SkiCondition := []

/-- A Local weather forecast (`type Local struct`). -/
structure Local where
  Area : Area := {}
  Climate : List ClimateAverage := []
  Current : CurrentCondition := {}
  Request : Request := {}
  Weather : List ForecastWeather := []
  Error : Option String := none

/-- A Marine weather forecast (`type Marine struct`). -/
structure Marine where
  Request : Request := {}
  Area : Area := {}
  Weather : List MarineWeather := []
  Error : Option String := none

/-- A historical Local weather report (`type PastLocal struct`). -/
structure PastLocal where
  Request : Request := {}
  Area : Area := {}
  Weather : List Weather := []
  Error : Option String := none

/-- Embeds `type PastMarine Marine`: historical marine reports share the
Marine field layout. -/
abbrev PastMarine := Marine

/-- A Ski weather forecast (`type Ski struct`). -/
structure Ski where
  Request : Request := {}
  Area : Area := {}
  Weather : List SkiWeather := []
  Error : Option String := none

/-- A timezone report (`type TimeZone struct`). -/
structure TimeZone where
  Request : Request := {}
  Area : Area := {}
  Zone : Zone := {}
  Error : Option String := none

/-- An area-search report (`type Search struct`). -/
structure Search where
  Area : List Area := []
  Error : Option String := none

/-! ## The Get operations

Each `Get<ReportType>` in `wwo/fetch.go` has the same body: mutate the
caller's option map (`opt["q"] = location; opt["date_format"] = ""`),
call `fetch`, `xml.Unmarshal` the bytes into a fresh zero report, and
inspect the decoded `Error` field.  The shared body is `getReportSteps`;
each operation instantiates it at its report type, error-field
projection, and service name.  A Go error value is embedded as
`GoError` together with its message text `errText`; dereferencing a nil
map (the Go runtime panic raised by `opt["q"] = location` when `opt` is
nil) is the `GoPanic` outcome. -/

/-- The Go errors a `Get<ReportType>` can return: the transport error
propagated verbatim, the `xml.Unmarshal` decode error, or
`errors.New(*o.Error)` built from the in-payload error message. -/
inductive GoError where
  | transport (e : String)
  | decode (e : String)
  | remote (msg : String)
deriving DecidableEq

/-- The text of a Go error value (`err.Error()`); for
`errors.New(msg)` this is exactly `msg`. -/
def errText : GoError → String
  | .transport e => e
  | .decode e => e
  | .remote msg => msg

/-- The run-time panic an operation can raise: assignment to an entry
in a nil map. -/
inductive GoPanic where
  | assignToNilMap
deriving DecidableEq

/-- The in-place mutation every `Get<ReportType>` performs on the
caller's option map before fetching: `opt["q"] = location;
opt["date_format"] = ""`. -/
def getOpts (location : String) (opt : GoMap) : GoMap :=
  setA (setA opt "q" location) "date_format" ""

/-- The shared body of the seven `Get<ReportType>` operations, for a
report type `α` with error-field projection `errOf` (`o.Error`) and a
given service segment.  `um` is the `xml.Unmarshal` collaborator: it
returns the (possibly partially) populated report overwritten onto
`new(α)`'s zero value together with an optional structural decode
error.  The result carries the report pointer (`Option α`), the Go
error, and the final state of the caller's option map; a nil option map
makes the first assignment panic. -/
def getReportSteps {α : Type} (errOf : α → Option String) (w : WWO)
    (http : URL → Except String String) (um : String → α × Option String)
    (service location : String) (opt : Option GoMap) :
    Except GoPanic (Option α × Option GoError × GoMap) :=
  match opt with
  | none => .error .assignToNilMap
  | some m =>
    let m := getOpts location m
    match fetch w http service m with
    | .error e => .ok (none, some (.transport e), m)
    | .ok text =>
      let od := um text
      match od.2 with
      | some e => .ok (some od.1, some (.decode e), m)
      | none =>
        match errOf od.1 with
        | some msg => .ok (some od.1, some (.remote msg), m)
        | none => .ok (some od.1, none, m)

/-- Embeds `func (w *WWO) GetLocal(location string, opt map[string]string)
(*Local, error)`. -/
def GetLocal (w : WWO) (http : URL → Except String String)
    (um : String → Local × Option String) (location : String)
    (opt : Option GoMap) : Except GoPanic (Option Local × Option GoError × GoMap) :=
  getReportSteps Local.Error w http um "weather" location opt

/-- Embeds `func (w *WWO) GetMarine(location string, opt map[string]string)
(*Marine, error)`. -/
def GetMarine (w : WWO) (http : URL → Except String String)
    (um : String → Marine × Option String) (location : String)
    (opt : Option GoMap) : Except GoPanic (Option Marine × Option GoError × GoMap) :=
  getReportSteps Marine.Error w http um "marine" location opt

/-- Embeds `func (w *WWO) GetSki(location string, opt map[string]string)
(*Ski, error)`. -/
def GetSki (w : WWO) (http : URL → Except String String)
    (um : String → Ski × Option String) (location : String)
    (opt : Option GoMap) : Except GoPanic (Option Ski × Option GoError × GoMap) :=
  getReportSteps Ski.Error w http um "ski" location opt

/-- Embeds `func (w *WWO) GetPastLocal(location string, opt map[string]string)
(*PastLocal, error)`. -/
def GetPastLocal (w : WWO) (http : URL → Except String String)
    (um : String → PastLocal × Option String) (location : String)
    (opt : Option GoMap) : Except GoPanic (Option PastLocal × Option GoError × GoMap) :=
  getReportSteps PastLocal.Error w http um "past-weather" location opt

/-- Embeds `func (w *WWO) GetPastMarine(location string, opt map[string]string)
(*PastMarine, error)`. -/
def GetPastMarine (w : WWO) (http : URL → Except String String)
    (um : String → PastMarine × Option String) (location : String)
    (opt : Option GoMap) : Except GoPanic (Option PastMarine × Option GoError × GoMap) :=
  getReportSteps Marine.Error w http um "past-marine" location opt

/-- Embeds `func (w *WWO) GetSearch(location string, opt map[string]string)
(*Search, error)`. -/
def GetSearch (w : WWO) (http : URL → Except String String)
    (um : String → Search × Option String) (location : String)
    (opt : Option GoMap) : Except GoPanic (Option Search × Option GoError × GoMap) :=
  getReportSteps Search.Error w http um "search" location opt

/-- Embeds `func (w *WWO) GetTimeZone(location string, opt map[string]string)
(*TimeZone, error)`. -/
def GetTimeZone (w : WWO) (http : URL → Except String String)
    (um : String → TimeZone × Option String) (location : String)
    (opt : Option GoMap) : Except GoPanic (Option TimeZone × Option GoError × GoMap) :=
  getReportSteps TimeZone.Error w http um "tz" location opt

/-! ## The custom scalar decoders

`Date`, `Time12` and `TimeHMM` attach `UnmarshalXML` methods that parse
the element's character content.  The embedding keeps the
`DecodeElement` step implicit (the content string is the input) and
models `time.Parse`, `strconv.ParseUint` and `Format` for exactly the
layouts the source uses.  Each decoder returns the value stored through
the receiver together with the returned error, since the source stores
a value even on failure. -/

/-- Go digit classification (`'0' <= c && c <= '9'`, a comparison of
code points, `'0'` being 48) with the digit's value `c - '0'`. -/
def digitVal (c : Char) : Option Nat :=
  if 48 ≤ c.toNat ∧ c.toNat ≤ 57 then some (c.toNat - 48) else none

/-- The character for a decimal digit. -/
def digitChar (n : Nat) : Char := Char.ofNat (48 + n)

/-- The digit-emitting loop of Go's integer formatting (repeated
division by 10, most significant digit first); the fuel bounds the
iteration count and is never exhausted when it starts at least at
`n`. -/
def decCharsCore : Nat → Nat → List Char → List Char
  | 0, _, ds => ds
  | fuel + 1, n, ds =>
    if n < 10 then digitChar n :: ds
    else decCharsCore fuel (n / 10) (digitChar (n % 10) :: ds)

/-- The decimal digits of `n`, as Go's integer formatting produces
them. -/
def decChars (n : Nat) : List Char := decCharsCore (n + 1) n []

/-- Go's zero-padding decimal formatting (`appendInt` with a width):
the decimal digits, left-padded with `'0'` to the width. -/
def padNum (width n : Nat) : List Char :=
  List.replicate (width - (decChars n).length) '0' ++ decChars n

/-- Parse exactly two decimal digits (a fixed-width number field of
`time.Parse`), returning the value and the remaining input. -/
def parse2 : List Char → Option (Nat × List Char)
  | c1 :: c2 :: rest =>
    match digitVal c1, digitVal c2 with
    | some a, some b => some (a * 10 + b, rest)
    | _, _ => none
  | _ => none

/-- Parse exactly four decimal digits (the `2006` year field of
`time.Parse`). -/
def parse4 : List Char → Option (Nat × List Char)
  | c1 :: c2 :: c3 :: c4 :: rest =>
    match digitVal c1, digitVal c2, digitVal c3, digitVal c4 with
    | some a, some b, some c, some d => some (((a * 10 + b) * 10 + c) * 10 + d, rest)
    | _, _, _, _ => none
  | _ => none

/-- Parse one or two decimal digits (the unpadded `3` hour field of
`time.Parse`, which takes a second digit exactly when one follows). -/
def parseHour12 : List Char → Option (Nat × List Char)
  | [] => none
  | c1 :: rest =>
    match digitVal c1 with
    | none => none
    | some a =>
      match rest with
      | c2 :: rest2 =>
        match digitVal c2 with
        | some b => some (a * 10 + b, rest2)
        | none => some (a, rest)
      | [] => some (a, [])

/-- Embeds `time.Parse("3:04 PM", content)`, reduced to its observable outcome:
a 1–2 digit hour at most 12, `':'`, a two-digit minute at most 59, a
space, the literal `AM` or `PM`, and end of input; the meridiem rules
(`PM` adds 12 below noon, `12 AM` is hour 0) give the 24-hour clock
reading, returned as `(hour24, minute)`. -/
def parse12 (l : List Char) : Option (Nat × Nat) :=
  match parseHour12 l with
  | none => none
  | some (h, rest) =>
    if h > 12 then none
    else
      match rest with
      | ':' :: r2 =>
        match parse2 r2 with
        | none => none
        | some (m, r3) =>
          if m > 59 then none
          else
            match r3 with
            | [' ', 'A', 'M'] => some (if h = 12 then 0 else h, m)
            | [' ', 'P', 'M'] => some (if h < 12 then h + 12 else h, m)
            | _ => none
      | _ => none

/-- The nanosecond gap between `time.Parse`'s default instant base
(January 1 of year 0, the value its omitted date fields produce) and
the zero `time.Time` (January 1 of year 1): 366 days, year 0 being a
leap year of the proleptic Gregorian calendar. -/
def year0Gap : Int := 31622400000000000

/-- Embeds `func (t *Time12) UnmarshalXML`: content prefixed `"No "` stores the
sentinel `-1`; otherwise `time.Parse("3:04 PM", content)` and
`ti.Sub(time.Time{})` store the parsed clock reading in nanoseconds
shifted down by `year0Gap` (on a parse failure the zero `ti` makes the
subtraction store `0`, and the parse error is returned). -/
def time12Unmarshal (content : String) : Time12 × Option String :=
  if List.isPrefixOf ['N', 'o', ' '] content.data then (-1, none)
  else
    match parse12 content.data with
    | some hm => (((hm.1 * 3600 + hm.2 * 60 : Nat) : Int) * 1000000000 - year0Gap, none)
    | none => (0, some "cannot parse as 3:04 PM")

/-- Embeds `(time.Time{}).Add(time.Duration(t)).Format("15:04")`: the wall
clock of the instant `t` nanoseconds after the zero time, as zero-padded
24-hour `HH:MM`. -/
def goClockFormat (t : Int) : String :=
  ⟨padNum 2 (((t / 1000000000 % 86400).toNat) / 3600) ++
    ':' :: padNum 2 (((t / 1000000000 % 86400).toNat) % 3600 / 60)⟩

/-- Embeds `func (t Time12) String() string`. -/
def Time12.toClock (t : Time12) : String := goClockFormat t

/-- Embeds `strconv.ParseUint(content, 10, 12)` digit loop: accumulate decimal
digits, failing with a syntax error (value 0) on a non-digit and with a
range error (value capped at `1<<12 - 1 = 4095`) on overflow. -/
def parseUintLoop : List Char → Nat → Nat × Option String
  | [], n => (n, none)
  | c :: rest, n =>
    match digitVal c with
    | none => (0, some "invalid syntax")
    | some d =>
      if n * 10 + d > 4095 then (4095, some "value out of range")
      else parseUintLoop rest (n * 10 + d)

/-- Embeds `strconv.ParseUint(content, 10, 12)`: empty input is a syntax
error; otherwise the digit loop. -/
def parseUint12 : List Char → Nat × Option String
  | [] => (0, some "invalid syntax")
  | l => parseUintLoop l 0

/-- Embeds `func (t *TimeHMM) UnmarshalXML`: parse the integer, split it as
`h, m := u/100, u%100`, and store `h` hours plus `m` minutes (in
nanoseconds); the `ParseUint` error, if any, is returned alongside the
value computed from the number `ParseUint` returned with it. -/
def timeHMMUnmarshal (content : String) : TimeHMM × Option String :=
  let ue := parseUint12 content.data
  (((ue.1 / 100) * 3600000000000 + (ue.1 % 100) * 60000000000 : Nat), ue.2)

/-- Embeds `func (t TimeHMM) String() string`. -/
def TimeHMM.toClock (t : TimeHMM) : String := goClockFormat t

/-- Embeds `isLeap` of Go's `time` package (proleptic Gregorian rule). -/
def isLeap (y : Nat) : Prop := y % 4 = 0 ∧ (y % 100 ≠ 0 ∨ y % 400 = 0)

instance (y : Nat) : Decidable (isLeap y) := by
  unfold isLeap; infer_instance

/-- Embeds `daysIn` of Go's `time` package: the number of days of a month. -/
def daysIn (y m : Nat) : Nat :=
  if m = 2 then (if isLeap y then 29 else 28)
  else if m = 4 ∨ m = 6 ∨ m = 9 ∨ m = 11 then 30
  else 31

/-- Embeds `time.Parse("2006-01-02", content)`, reduced to its observable
outcome: a four-digit year, `'-'`, a two-digit month in 1–12, `'-'`, a
two-digit day in range for that month and year, and end of input. -/
def parseDate (l : List Char) : Option Date :=
  match parse4 l with
  | none => none
  | some yr =>
    match yr.2 with
    | [] => none
    | c1 :: r1 =>
      if c1 = '-' then
        match parse2 r1 with
        | none => none
        | some mr =>
          match mr.2 with
          | [] => none
          | c2 :: r2 =>
            if c2 = '-' then
              match parse2 r2 with
              | none => none
              | some dr =>
                match dr.2 with
                | [] =>
                  if 1 ≤ mr.1 ∧ mr.1 ≤ 12 ∧ 1 ≤ dr.1 ∧ dr.1 ≤ daysIn yr.1 mr.1 then
                    some ⟨yr.1, mr.1, dr.1⟩
                  else none
                | _ :: _ => none
            else none
      else none

/-- Embeds `func (t *Date) UnmarshalXML`: parse the date; on failure the zero
`time.Time` (January 1, year 1) is stored and the error returned. -/
def dateUnmarshal (content : String) : Date × Option String :=
  match parseDate content.data with
  | some d => (d, none)
  | none => ({}, some "cannot parse as 2006-01-02")

/-- Embeds `func (t Date) String() string`:
`time.Time(t).Format("2006-01-02")`, a four-digit zero-padded year and
two-digit zero-padded month and day. -/
def Date.format (d : Date) : String :=
  ⟨padNum 4 d.year ++ '-' :: (padNum 2 d.month ++ '-' :: padNum 2 d.day)⟩

/-- Embeds `xml.Unmarshal`'s population of a `TempRange` value: each of the
four fields is read from the child element named by its own XML tag
(`maxtempC`, `maxtempF`, `mintempC`, `mintempF`), and a field whose
element is absent keeps the zero value.  `fields` gives the integer
content of the present child elements by name. -/
def decodeTempRange (fields : String → Option Int) : TempRange :=
  { MaxTemp := (fields "maxtempC").getD 0
    MaxTempF := (fields "maxtempF").getD 0
    MinTemp := (fields "mintempC").getD 0
    MinTempF := (fields "mintempF").getD 0 }

/-! ## Specification-side constructions

Inputs used to quantify over well-formed payload fragments: the shape
of a valid 12-hour clock string and the standard 12-to-24-hour
conversion, and concrete collaborators for exercising the pipeline. -/

/-- The standard 12-to-24-hour conversion: `PM` adds twelve below noon,
`12 AM` is hour zero. -/
def hour24 (h : Nat) (ap : Bool) : Nat :=
  if ap then (if h < 12 then h + 12 else h) else (if h = 12 then 0 else h)

/-- A well-formed 12-hour clock string `H:MM AM|PM` (hour unpadded,
minute zero-padded), `ap` true meaning `PM`. -/
def mk12 (h m : Nat) (ap : Bool) : String :=
  Nat.repr h ++ ":" ++ ⟨padNum 2 m⟩ ++ " " ++ (if ap then "PM" else "AM")

/-- A client with a fixed credential, for exercising the operations. -/
def wwoK : WWO := ⟨"k", false⟩

/-- A transport that answers every request with an empty body. -/
def httpEmpty : URL → Except String String := fun _ => .ok ""

/-- A transport that fails every request. -/
def httpDown : URL → Except String String := fun _ => .error "connection refused"

/-- An unmarshal outcome: a `Local` carrying only an error-message
node. -/
def umLocalErr : String → Local × Option String :=
  fun _ => ({ Error := some "Unable to find any matching weather location" }, none)

/-- An unmarshal outcome: a structural decode failure after only the
request echo was filled in. -/
def umLocalBad : String → Local × Option String :=
  fun _ => ({ Request := { Query := "partial" } }, some "unexpected EOF")

/-- A payload-fields assignment whose Celsius and Fahrenheit maxima
disagree (0 degrees C alongside 100 degrees F). -/
def tempFieldsDrift : String → Option Int :=
  fun t => if t = "maxtempC" then some 0 else if t = "maxtempF" then some 100 else none

/-! ## Lemmas about the Go-map embedding -/

theorem lookup_cons_self {t : GoMap} {k v : String} :
    List.lookup k ((k, v) :: t) = some v := by
  simp [List.lookup]

theorem lookup_cons_ne {t : GoMap} {k k1 v1 : String} (h : k ≠ k1) :
    List.lookup k ((k1, v1) :: t) = List.lookup k t := by
  have hb : (k == k1) = false := beq_eq_false_iff_ne.mpr h
  simp [List.lookup, hb]

theorem lookup_setA_self (m : GoMap) (k v : String) :
    (setA m k v).lookup k = some v := by
  induction m with
  | nil => simp [setA, List.lookup]
  | cons kv t ih =>
    obtain ⟨k1, v1⟩ := kv
    by_cases h : k1 = k
    · subst h; simp [setA, lookup_cons_self]
    · rw [setA, if_neg h, lookup_cons_ne (fun he => h he.symm), ih]

theorem lookup_setA_ne (m : GoMap) (k k' v : String) (h : k' ≠ k) :
    (setA m k v).lookup k' = m.lookup k' := by
  induction m with
  | nil => show List.lookup k' [(k, v)] = _; rw [lookup_cons_ne h]
  | cons kv t ih =>
    obtain ⟨k1, v1⟩ := kv
    by_cases h1 : k1 = k
    · subst h1
      rw [setA, if_pos rfl, lookup_cons_ne h, lookup_cons_ne h]
    · rw [setA, if_neg h1]
      by_cases h2 : k' = k1
      · subst h2; rw [lookup_cons_self, lookup_cons_self]
      · rw [lookup_cons_ne h2, lookup_cons_ne h2, ih]

theorem nodupKeys_setA {m : GoMap} (k v : String) (h : nodupKeys m) :
    nodupKeys (setA m k v) := by
  induction m with
  | nil => exact ⟨rfl, trivial⟩
  | cons kv t ih =>
    obtain ⟨k1, v1⟩ := kv
    obtain ⟨h1, h2⟩ := h
    by_cases he : k1 = k
    · subst he; rw [setA, if_pos rfl]; exact ⟨h1, h2⟩
    · rw [setA, if_neg he]
      exact ⟨by rw [lookup_setA_ne _ _ _ _ he]; exact h1, ih h2⟩

theorem lookup_foldSet_of_none (q : GoMap) (init : GoMap) (k : String)
    (h : q.lookup k = none) : (foldSet init q).lookup k = init.lookup k := by
  induction q generalizing init with
  | nil => simp [foldSet]
  | cons kv t ih =>
    obtain ⟨k1, v1⟩ := kv
    by_cases h1 : k = k1
    · subst h1; rw [lookup_cons_self] at h; exact absurd h (by simp)
    · rw [lookup_cons_ne h1] at h
      show (foldSet (setA init k1 v1) t).lookup k = init.lookup k
      rw [ih _ h, lookup_setA_ne _ _ _ _ h1]

theorem lookup_foldSet_of_some (q : GoMap) (init : GoMap) (k : String) (v : String)
    (hn : nodupKeys q) (h : q.lookup k = some v) :
    (foldSet init q).lookup k = some v := by
  induction q generalizing init with
  | nil => simp [List.lookup] at h
  | cons kv t ih =>
    obtain ⟨k1, v1⟩ := kv
    obtain ⟨hn1, hn2⟩ := hn
    by_cases h1 : k = k1
    · subst h1
      rw [lookup_cons_self] at h
      injection h with h; subst h
      show (foldSet (setA init k v1) t).lookup k = some v1
      rw [lookup_foldSet_of_none _ _ _ hn1, lookup_setA_self]
    · rw [lookup_cons_ne h1] at h
      exact ih _ hn2 h

/-! ## Lemmas about decimal digits and `Nat.repr` -/

theorem digitVal_digitChar (k : Nat) (h : k ≤ 9) :
    digitVal (digitChar k) = some k := by
  interval_cases k <;> decide

theorem digitVal_eq_some {c : Char} {k : Nat} (h : digitVal c = some k) :
    k ≤ 9 ∧ c = digitChar k := by
  unfold digitVal at h
  split at h
  · rename_i hc
    injection h with h
    subst h
    refine ⟨by omega, ?_⟩
    unfold digitChar
    rw [show 48 + (c.toNat - 48) = c.toNat by omega, Char.ofNat_toNat]
  · exact absurd h (by simp)

theorem decCharsCore_lt (fuel n : Nat) (ds : List Char) (h : n < 10) :
    decCharsCore (fuel + 1) n ds = digitChar n :: ds := by
  conv_lhs => rw [decCharsCore]
  rw [if_pos h]

theorem decCharsCore_step (fuel n : Nat) (ds : List Char) (h : ¬n < 10) :
    decCharsCore (fuel + 1) n ds
      = decCharsCore fuel (n / 10) (digitChar (n % 10) :: ds) := by
  conv_lhs => rw [decCharsCore]
  rw [if_neg h]

theorem decChars_lt {n : Nat} (h : n < 10) : decChars n = [digitChar n] := by
  show decCharsCore (n + 1) n [] = _
  rw [decCharsCore_lt _ _ _ h]

theorem decCharsCore_eq (n : Nat) :
    ∀ fuel ds, n ≤ fuel → decCharsCore (fuel + 1) n ds = decChars n ++ ds := by
  induction n using Nat.strong_induction_on with
  | _ n ih =>
    intro fuel ds hf
    by_cases h1 : n < 10
    · rw [decCharsCore_lt _ _ _ h1, decChars_lt h1]
      rfl
    · obtain ⟨f, rfl⟩ : ∃ f, fuel = f + 1 := ⟨fuel - 1, by omega⟩
      rw [decCharsCore_step _ _ _ h1]
      have hdiv : n / 10 < n := Nat.div_lt_self (by omega) (by omega)
      have h10 : n / 10 ≤ f := by omega
      rw [ih (n / 10) hdiv f _ h10]
      have hrhs : decChars n = decChars (n / 10) ++ [digitChar (n % 10)] := by
        show decCharsCore (n + 1) n [] = _
        obtain ⟨g, hg⟩ : ∃ g, n = g + 1 := ⟨n - 1, by omega⟩
        rw [hg, decCharsCore_step _ _ _ (by omega)]
        have hle : (g + 1) / 10 ≤ g := by omega
        rw [ih ((g + 1) / 10) (by omega) g _ hle]
      rw [hrhs]
      simp

theorem decChars_ge {n : Nat} (h : 10 ≤ n) :
    decChars n = decChars (n / 10) ++ [digitChar (n % 10)] := by
  show decCharsCore (n + 1) n [] = _
  obtain ⟨g, hg⟩ : ∃ g, n = g + 1 := ⟨n - 1, by omega⟩
  rw [hg, decCharsCore_step _ _ _ (by omega)]
  have hle : (g + 1) / 10 ≤ g := by omega
  rw [decCharsCore_eq ((g + 1) / 10) g _ hle, ← hg]

theorem decChars_ne_nil (n : Nat) : decChars n ≠ [] := by
  by_cases h : n < 10
  · rw [decChars_lt h]; simp
  · rw [decChars_ge (by omega)]; simp

theorem decChars_two {m : Nat} (h1 : 10 ≤ m) (h2 : m < 100) :
    decChars m = [digitChar (m / 10), digitChar (m % 10)] := by
  rw [decChars_ge h1, decChars_lt (by omega)]
  rfl

theorem padNum2_eq (m : Nat) (h : m < 100) :
    padNum 2 m = [digitChar (m / 10), digitChar (m % 10)] := by
  by_cases h1 : m < 10
  · unfold padNum
    rw [decChars_lt h1]
    rw [Nat.div_eq_of_lt h1, Nat.mod_eq_of_lt h1]
    rfl
  · unfold padNum
    rw [decChars_two (by omega) h]
    simp

theorem padNum4_eq (y : Nat) (h : y < 10000) :
    padNum 4 y = [digitChar (y / 1000), digitChar (y / 100 % 10),
      digitChar (y / 10 % 10), digitChar (y % 10)] := by
  by_cases h1 : y < 10
  · unfold padNum
    rw [decChars_lt h1]
    rw [show y / 1000 = 0 by omega, show y / 100 % 10 = 0 by omega,
      show y / 10 % 10 = 0 by omega, Nat.mod_eq_of_lt h1]
    rfl
  · by_cases h2 : y < 100
    · unfold padNum
      rw [decChars_two (by omega) h2]
      rw [show y / 1000 = 0 by omega, show y / 100 % 10 = 0 by omega,
        show y / 10 % 10 = y / 10 by omega]
      rfl
    · by_cases h3 : y < 1000
      · unfold padNum
        rw [decChars_ge (by omega), decChars_two (by omega) (by omega)]
        rw [show y / 10 / 10 = y / 100 by omega]
        rw [show y / 1000 = 0 by omega, show y / 100 % 10 = y / 100 by omega]
        rfl
      · unfold padNum
        rw [decChars_ge (by omega), decChars_ge (by omega),
          decChars_two (m := y / 10 / 10) (by omega) (by omega)]
        rw [show y / 10 / 10 / 10 = y / 1000 by omega,
          show y / 10 / 10 % 10 = y / 100 % 10 by omega]
        rfl

theorem nat_digitChar_eq (d : Nat) (h : d ≤ 9) : Nat.digitChar d = digitChar d := by
  interval_cases d <;> decide

theorem toDigitsCore_eq (fuel : Nat) :
    ∀ n ds, n < 10 ^ (fuel + 1) →
      Nat.toDigitsCore 10 (fuel + 1) n ds = decChars n ++ ds := by
  induction fuel with
  | zero =>
    intro n ds h
    simp only [Nat.zero_add, pow_one] at h
    unfold Nat.toDigitsCore
    rw [if_pos (by omega), decChars_lt h, Nat.mod_eq_of_lt h,
      nat_digitChar_eq n (by omega)]
    rfl
  | succ fuel ih =>
    intro n ds h
    unfold Nat.toDigitsCore
    by_cases h0 : n / 10 = 0
    · rw [if_pos h0]
      have hn : n < 10 := by omega
      rw [decChars_lt hn, Nat.mod_eq_of_lt hn, nat_digitChar_eq n (by omega)]
      rfl
    · rw [if_neg h0]
      have h10 : 10 ≤ n := by omega
      have hdiv : n / 10 < 10 ^ (fuel + 1) := by
        rw [Nat.div_lt_iff_lt_mul (by omega)]
        calc n < 10 ^ (fuel + 1 + 1) := h
        _ = 10 ^ (fuel + 1) * 10 := by ring
      rw [ih (n / 10) _ hdiv, decChars_ge h10,
        nat_digitChar_eq (n % 10) (by omega)]
      simp

theorem repr_data (n : Nat) : (Nat.repr n).data = decChars n := by
  have hlt : n < 10 ^ (n + 1) := by
    calc n < 2 ^ n := Nat.lt_two_pow n
    _ ≤ 10 ^ n := Nat.pow_le_pow_left (by omega) n
    _ ≤ 10 ^ (n + 1) := Nat.pow_le_pow_right (by omega) (by omega)
  show (List.asString (Nat.toDigitsCore 10 (n + 1) n [])).data = decChars n
  rw [toDigitsCore_eq n n [] hlt]
  simp [List.asString]

/-! ## Lemmas about `strconv.ParseUint` -/

theorem parseUintLoop_nil (n : Nat) : parseUintLoop [] n = (n, none) := rfl

theorem parseUintLoop_cons (c : Char) (rest : List Char) (n : Nat) :
    parseUintLoop (c :: rest) n =
      match digitVal c with
      | none => (0, some "invalid syntax")
      | some d =>
        if n * 10 + d > 4095 then (4095, some "value out of range")
        else parseUintLoop rest (n * 10 + d) := rfl

theorem parseUintLoop_append (l1 l2 : List Char) (acc m : Nat)
    (h : parseUintLoop l1 acc = (m, none)) :
    parseUintLoop (l1 ++ l2) acc = parseUintLoop l2 m := by
  induction l1 generalizing acc with
  | nil =>
    rw [parseUintLoop_nil] at h
    injection h with h1 h2
    subst h1
    simp
  | cons c t ih =>
    rw [parseUintLoop_cons] at h
    rw [List.cons_append, parseUintLoop_cons]
    cases hd : digitVal c with
    | none => rw [hd] at h; exact absurd h (by simp)
    | some d =>
      rw [hd] at h
      simp only at h ⊢
      by_cases hov : acc * 10 + d > 4095
      · rw [if_pos hov] at h; exact absurd h (by simp)
      · rw [if_neg hov] at h
        rw [if_neg hov]
        exact ih _ h

theorem parseUintLoop_decChars (n : Nat) :
    ∀ acc, acc * 10 ^ (decChars n).length + n ≤ 4095 →
      parseUintLoop (decChars n) acc =
        (acc * 10 ^ (decChars n).length + n, none) := by
  induction n using Nat.strong_induction_on with
  | _ n ih =>
    intro acc h
    by_cases h1 : n < 10
    · rw [decChars_lt h1] at h ⊢
      simp only [List.length_singleton, pow_one] at h ⊢
      rw [parseUintLoop_cons, digitVal_digitChar n (by omega)]
      simp only
      rw [if_neg (by omega), parseUintLoop_nil]
    · have h10 : 10 ≤ n := by omega
      rw [decChars_ge h10] at h ⊢
      have hlen : (decChars (n / 10) ++ [digitChar (n % 10)]).length
          = (decChars (n / 10)).length + 1 := by simp
      rw [hlen] at h ⊢
      have hpow : acc * 10 ^ ((decChars (n / 10)).length + 1)
          = acc * 10 ^ (decChars (n / 10)).length * 10 := by ring
      rw [hpow] at h ⊢
      have hmod := Nat.div_add_mod n 10
      have hq : acc * 10 ^ (decChars (n / 10)).length + n / 10 ≤ 4095 := by omega
      have h2 := ih (n / 10) (by omega) acc hq
      rw [parseUintLoop_append _ _ _ _ h2]
      rw [parseUintLoop_cons, digitVal_digitChar (n % 10) (by omega)]
      simp only
      rw [if_neg (by omega), parseUintLoop_nil]
      congr 1
      omega

theorem parseUint12_decChars (v : Nat) (h : v ≤ 4095) :
    parseUint12 (decChars v) = (v, none) := by
  have hmain := parseUintLoop_decChars v 0 (by simpa using h)
  simp only [Nat.zero_mul, Nat.zero_add] at hmain
  cases hct : decChars v with
  | nil => exact absurd hct (decChars_ne_nil v)
  | cons c t =>
    rw [hct] at hmain
    show parseUintLoop (c :: t) 0 = (v, none)
    exact hmain

/-! ## Lemmas about the fixed-width number fields of `time.Parse` -/

theorem parse2_cons (c1 c2 : Char) (rest : List Char) :
    parse2 (c1 :: c2 :: rest) =
      match digitVal c1, digitVal c2 with
      | some a, some b => some (a * 10 + b, rest)
      | _, _ => none := rfl

theorem parse2_digits {a b : Nat} (r : List Char) (ha : a ≤ 9) (hb : b ≤ 9) :
    parse2 (digitChar a :: digitChar b :: r) = some (a * 10 + b, r) := by
  rw [parse2_cons, digitVal_digitChar a ha, digitVal_digitChar b hb]

theorem parse2_eq_some {l : List Char} {v : Nat} {rest : List Char}
    (h : parse2 l = some (v, rest)) :
    v ≤ 99 ∧ l = digitChar (v / 10) :: digitChar (v % 10) :: rest := by
  match l with
  | [] => exact absurd h (by simp [parse2])
  | [c1] => exact absurd h (by simp [parse2])
  | c1 :: c2 :: r =>
    rw [parse2_cons] at h
    cases hd1 : digitVal c1 with
    | none => rw [hd1] at h; exact absurd h (by simp)
    | some a =>
      cases hd2 : digitVal c2 with
      | none => rw [hd1, hd2] at h; exact absurd h (by simp)
      | some b =>
        rw [hd1, hd2] at h
        simp only at h
        injection h with h
        injection h with h1 h2
        subst h2
        obtain ⟨ha, hc1⟩ := digitVal_eq_some hd1
        obtain ⟨hb, hc2⟩ := digitVal_eq_some hd2
        subst hc1; subst hc2; subst h1
        refine ⟨by omega, ?_⟩
        rw [show (a * 10 + b) / 10 = a by omega, show (a * 10 + b) % 10 = b by omega]

theorem parse4_cons (c1 c2 c3 c4 : Char) (rest : List Char) :
    parse4 (c1 :: c2 :: c3 :: c4 :: rest) =
      match digitVal c1, digitVal c2, digitVal c3, digitVal c4 with
      | some a, some b, some c, some d => some (((a * 10 + b) * 10 + c) * 10 + d, rest)
      | _, _, _, _ => none := rfl

theorem parse4_eq_some {l : List Char} {v : Nat} {rest : List Char}
    (h : parse4 l = some (v, rest)) :
    v ≤ 9999 ∧ l = digitChar (v / 1000) :: digitChar (v / 100 % 10) ::
      digitChar (v / 10 % 10) :: digitChar (v % 10) :: rest := by
  match l with
  | [] => exact absurd h (by simp [parse4])
  | [c1] => exact absurd h (by simp [parse4])
  | [c1, c2] => exact absurd h (by simp [parse4])
  | [c1, c2, c3] => exact absurd h (by simp [parse4])
  | c1 :: c2 :: c3 :: c4 :: r =>
    rw [parse4_cons] at h
    cases hd1 : digitVal c1 with
    | none => rw [hd1] at h; exact absurd h (by simp)
    | some a =>
      cases hd2 : digitVal c2 with
      | none => rw [hd1, hd2] at h; exact absurd h (by simp)
      | some b =>
        cases hd3 : digitVal c3 with
        | none => rw [hd1, hd2, hd3] at h; exact absurd h (by simp)
        | some c =>
          cases hd4 : digitVal c4 with
          | none => rw [hd1, hd2, hd3, hd4] at h; exact absurd h (by simp)
          | some d =>
            rw [hd1, hd2, hd3, hd4] at h
            simp only at h
            injection h with h
            injection h with h1 h2
            subst h2
            obtain ⟨ha, hc1⟩ := digitVal_eq_some hd1
            obtain ⟨hb, hc2⟩ := digitVal_eq_some hd2
            obtain ⟨hc, hc3⟩ := digitVal_eq_some hd3
            obtain ⟨hd, hc4⟩ := digitVal_eq_some hd4
            subst hc1; subst hc2; subst hc3; subst hc4; subst h1
            refine ⟨by omega, ?_⟩
            rw [show (((a * 10 + b) * 10 + c) * 10 + d) / 1000 = a by omega,
              show (((a * 10 + b) * 10 + c) * 10 + d) / 100 % 10 = b by omega,
              show (((a * 10 + b) * 10 + c) * 10 + d) / 10 % 10 = c by omega,
              show (((a * 10 + b) * 10 + c) * 10 + d) % 10 = d by omega]

/-! ## The calendar-date round trip -/

theorem parseDate_format {s : String} {d : Date}
    (h : parseDate s.data = some d) : d.format = s := by
  unfold parseDate at h
  cases h4 : parse4 s.data with
  | none => rw [h4] at h; simp at h
  | some yr =>
    obtain ⟨y, r0⟩ := yr
    rw [h4] at h
    simp only at h
    match hr0 : r0 with
    | [] => simp at h
    | c1 :: r1 =>
      simp only at h
      by_cases hc1 : c1 = '-'
      · rw [if_pos hc1] at h
        cases h2 : parse2 r1 with
        | none => rw [h2] at h; simp at h
        | some mr =>
          obtain ⟨mo, r1b⟩ := mr
          rw [h2] at h
          simp only at h
          match hr1b : r1b with
          | [] => simp at h
          | c2 :: r2 =>
            simp only at h
            by_cases hc2 : c2 = '-'
            · rw [if_pos hc2] at h
              cases h3 : parse2 r2 with
              | none => rw [h3] at h; simp at h
              | some dr =>
                obtain ⟨dy, r2b⟩ := dr
                rw [h3] at h
                simp only at h
                match hr2b : r2b with
                | [] =>
                  simp only at h
                  split at h
                  · rename_i hrange
                    injection h with h
                    subst h
                    obtain ⟨hy, hl4⟩ := parse4_eq_some h4
                    obtain ⟨hmo, hl2⟩ := parse2_eq_some h2
                    obtain ⟨hdy, hl3⟩ := parse2_eq_some h3
                    subst hc1; subst hc2
                    unfold Date.format
                    cases s with
                    | mk sdata =>
                      simp only at hl4 ⊢
                      congr 1
                      rw [padNum4_eq y (by omega), padNum2_eq mo (by omega),
                        padNum2_eq dy (by omega)]
                      rw [hl4, hl2, hl3]
                      rfl
                  · simp at h
                | c3 :: r3 => simp at h
            · rw [if_neg hc2] at h; simp at h
      · rw [if_neg hc1] at h; simp at h

/-! ## Lemmas about the 12-hour clock decoder -/

theorem mk12_data (h m : Nat) (ap : Bool) :
    (mk12 h m ap).data =
      decChars h ++ ':' :: (padNum 2 m ++ ' ' ::
        (if ap then ['P', 'M'] else ['A', 'M'])) := by
  unfold mk12
  cases ap <;> simp [String.data_append, repr_data]

theorem decChars_head (n : Nat) (h : n ≤ 99) :
    ∃ k t, k ≤ 9 ∧ decChars n = digitChar k :: t := by
  by_cases h1 : n < 10
  · exact ⟨n, [], by omega, decChars_lt h1⟩
  · exact ⟨n / 10, [digitChar (n % 10)], by omega, decChars_two (by omega) (by omega)⟩

theorem isPrefixOf_no_digit {k : Nat} (hk : k ≤ 9) (t : List Char) :
    List.isPrefixOf ['N', 'o', ' '] (digitChar k :: t) = false := by
  have hne : ('N' == digitChar k) = false := by interval_cases k <;> decide
  simp [List.isPrefixOf, hne]

theorem parseHour12_cons₂ (c1 c2 : Char) (t : List Char) :
    parseHour12 (c1 :: c2 :: t) =
      match digitVal c1 with
      | none => none
      | some a =>
        match digitVal c2 with
        | some b => some (a * 10 + b, t)
        | none => some (a, c2 :: t) := rfl

theorem parse12_clock (h m : Nat) (ap : Bool) (h2 : h ≤ 12) (hm : m ≤ 59) :
    parse12 (decChars h ++ ':' :: (padNum 2 m ++ ' ' ::
        (if ap then ['P', 'M'] else ['A', 'M']))) = some (hour24 h ap, m) := by
  have hpad : parse2 (padNum 2 m ++ ' ' :: (if ap then ['P', 'M'] else ['A', 'M']))
      = some (m, ' ' :: (if ap then ['P', 'M'] else ['A', 'M'])) := by
    rw [padNum2_eq m (by omega)]
    rw [List.cons_append, List.cons_append, List.nil_append]
    rw [parse2_digits _ (by omega) (by omega)]
    rw [show m / 10 * 10 + m % 10 = m by omega]
  have hhour : parseHour12 (decChars h ++ ':' :: (padNum 2 m ++ ' ' ::
      (if ap then ['P', 'M'] else ['A', 'M'])))
      = some (h, ':' :: (padNum 2 m ++ ' ' :: (if ap then ['P', 'M'] else ['A', 'M']))) := by
    by_cases h1 : h < 10
    · rw [decChars_lt h1, List.cons_append, List.nil_append, parseHour12_cons₂,
        digitVal_digitChar h (by omega)]
      simp only
      rw [show digitVal ':' = none from by decide]
    · rw [decChars_two (by omega) (by omega), List.cons_append, List.cons_append,
        List.nil_append, parseHour12_cons₂, digitVal_digitChar (h / 10) (by omega)]
      simp only
      rw [digitVal_digitChar (h % 10) (by omega)]
      simp only
      rw [show h / 10 * 10 + h % 10 = h by omega]
  unfold parse12
  rw [hhour]
  simp only
  rw [if_neg (by omega)]
  rw [hpad]
  simp only
  rw [if_neg (by omega)]
  cases ap <;> simp [hour24]

theorem time12Unmarshal_clock (h m : Nat) (ap : Bool) (h2 : h ≤ 12) (hm : m ≤ 59) :
    time12Unmarshal (mk12 h m ap) =
      (((hour24 h ap * 3600 + m * 60 : Nat) : Int) * 1000000000 - year0Gap, none) := by
  unfold time12Unmarshal
  rw [mk12_data]
  obtain ⟨k, t, hk, hdec⟩ := decChars_head h (by omega)
  rw [hdec, List.cons_append, isPrefixOf_no_digit hk]
  simp only [Bool.false_eq_true, if_false]
  rw [← List.cons_append, ← hdec, parse12_clock h m ap h2 hm]

theorem goClockFormat_clock (X : Nat) (hX : X < 86400) :
    goClockFormat ((X : Int) * 1000000000 - year0Gap) =
      ⟨padNum 2 (X / 3600) ++ ':' :: padNum 2 (X % 3600 / 60)⟩ := by
  unfold goClockFormat year0Gap
  have h1 : ((X : Int) * 1000000000 - 31622400000000000) / 1000000000
      = (X : Int) - 31622400 := by
    rw [show (X : Int) * 1000000000 - 31622400000000000
        = ((X : Int) - 31622400) * 1000000000 by ring]
    exact Int.mul_ediv_cancel _ (by norm_num)
  rw [h1]
  have h2 : ((X : Int) - 31622400) % 86400 = (X : Int) := by omega
  rw [h2, Int.toNat_natCast]

/-! ## Lemmas about the shared Get pipeline -/

theorem getReportSteps_nil {α : Type} (errOf : α → Option String) (w : WWO)
    (http : URL → Except String String) (um : String → α × Option String)
    (service location : String) :
    getReportSteps errOf w http um service location none = .error .assignToNilMap := rfl

theorem getReportSteps_remote {α : Type} (errOf : α → Option String) (w : WWO)
    (http : URL → Except String String) (um : String → α × Option String)
    (service location : String) (m : GoMap) (o : α) (msg text : String)
    (hf : fetch w http service (getOpts location m) = .ok text)
    (hu : um text = (o, none)) (he : errOf o = some msg) :
    getReportSteps errOf w http um service location (some m) =
      .ok (some o, some (.remote msg), getOpts location m) := by
  simp only [getReportSteps]
  rw [hf]
  simp only
  rw [hu]
  simp only
  rw [he]

theorem getReportSteps_decodeFail {α : Type} (errOf : α → Option String) (w : WWO)
    (http : URL → Except String String) (um : String → α × Option String)
    (service location : String) (m : GoMap) (o : α) (e text : String)
    (hf : fetch w http service (getOpts location m) = .ok text)
    (hu : um text = (o, some e)) :
    getReportSteps errOf w http um service location (some m) =
      .ok (some o, some (.decode e), getOpts location m) := by
  simp only [getReportSteps]
  rw [hf]
  simp only
  rw [hu]

theorem getReportSteps_total {α : Type} (errOf : α → Option String) (w : WWO)
    (http : URL → Except String String) (um : String → α × Option String)
    (service location : String) (m : GoMap) :
    ∃ res, getReportSteps errOf w http um service location (some m) = .ok res := by
  simp only [getReportSteps]
  cases hf : fetch w http service (getOpts location m) with
  | error e => exact ⟨_, rfl⟩
  | ok text =>
    simp only
    cases hu : (um text).2 with
    | some e => exact ⟨_, rfl⟩
    | none =>
      simp only
      cases he : errOf (um text).1 with
      | some msg => exact ⟨_, rfl⟩
      | none => exact ⟨_, rfl⟩

theorem getReportSteps_state {α : Type} (errOf : α → Option String) (w : WWO)
    (http : URL → Except String String) (um : String → α × Option String)
    (service location : String) (m : GoMap) :
    (getReportSteps errOf w http um service location (some m)).map (fun r => r.2.2)
      = .ok (getOpts location m) := by
  simp only [getReportSteps]
  cases hf : fetch w http service (getOpts location m) with
  | error e => rfl
  | ok text =>
    simp only
    cases hu : (um text).2 with
    | some e => rfl
    | none =>
      simp only
      cases he : errOf (um text).1 with
      | some msg => rfl
      | none => rfl

/-! ## The claims -/

/-- C1: for every payload that decodes structurally (`um text = (o, none)`)
and carries an error-message node (`o.Error = some msg`), each
`Get<ReportType>` operation returns the decoded non-nil report together
with a non-nil error whose text equals the payload's error message. -/
theorem get_error_signal :
    (∀ (w : WWO) (http : URL → Except String String)
        (um : String → Local × Option String) (loc : String) (m : GoMap)
        (o : Local) (msg text : String),
      fetch w http "weather" (getOpts loc m) = .ok text →
      um text = (o, none) → o.Error = some msg →
      GetLocal w http um loc (some m) =
        .ok (some o, some (.remote msg), getOpts loc m) ∧
      errText (.remote msg) = msg) ∧
    (∀ (w : WWO) (http : URL → Except String String)
        (um : String → Marine × Option String) (loc : String) (m : GoMap)
        (o : Marine) (msg text : String),
      fetch w http "marine" (getOpts loc m) = .ok text →
      um text = (o, none) → o.Error = some msg →
      GetMarine w http um loc (some m) =
        .ok (some o, some (.remote msg), getOpts loc m) ∧
      errText (.remote msg) = msg) ∧
    (∀ (w : WWO) (http : URL → Except String String)
        (um : String → Ski × Option String) (loc : String) (m : GoMap)
        (o : Ski) (msg text : String),
      fetch w http "ski" (getOpts loc m) = .ok text →
      um text = (o, none) → o.Error = some msg →
      GetSki w http um loc (some m) =
        .ok (some o, some (.remote msg), getOpts loc m) ∧
      errText (.remote msg) = msg) ∧
    (∀ (w : WWO) (http : URL → Except String String)
        (um : String → PastLocal × Option String) (loc : String) (m : GoMap)
        (o : PastLocal) (msg text : String),
      fetch w http "past-weather" (getOpts loc m) = .ok text →
      um text = (o, none) → o.Error = some msg →
      GetPastLocal w http um loc (some m) =
        .ok (some o, some (.remote msg), getOpts loc m) ∧
      errText (.remote msg) = msg) ∧
    (∀ (w : WWO) (http : URL → Except String String)
        (um : String → PastMarine × Option String) (loc : String) (m : GoMap)
        (o : PastMarine) (msg text : String),
      fetch w http "past-marine" (getOpts loc m) = .ok text →
      um text = (o, none) → o.Error = some msg →
      GetPastMarine w http um loc (some m) =
        .ok (some o, some (.remote msg), getOpts loc m) ∧
      errText (.remote msg) = msg) ∧
    (∀ (w : WWO) (http : URL → Except String String)
        (um : String → Search × Option String) (loc : String) (m : GoMap)
        (o : Search) (msg text : String),
      fetch w http "search" (getOpts loc m) = .ok text →
      um text = (o, none) → o.Error = some msg →
      GetSearch w http um loc (some m) =
        .ok (some o, some (.remote msg), getOpts loc m) ∧
      errText (.remote msg) = msg) ∧
    (∀ (w : WWO) (http : URL → Except String String)
        (um : String → TimeZone × Option String) (loc : String) (m : GoMap)
        (o : TimeZone) (msg text : String),
      fetch w http "tz" (getOpts loc m) = .ok text →
      um text = (o, none) → o.Error = some msg →
      GetTimeZone w http um loc (some m) =
        .ok (some o, some (.remote msg), getOpts loc m) ∧
      errText (.remote msg) = msg) := by
  refine ⟨?_, ?_, ?_, ?_, ?_, ?_, ?_⟩ <;>
  · intro w http um loc m o msg text hf hu he
    exact ⟨getReportSteps_remote _ w http um _ loc m o msg text hf hu he, rfl⟩

/-- C1 witness: a payload decoding to a `Local` that carries only an
error-message node produces that report plus the remote error. -/
theorem get_error_signal_witness :
    GetLocal wwoK httpEmpty umLocalErr "London" (some []) =
      .ok (some { Error := some "Unable to find any matching weather location" },
        some (.remote "Unable to find any matching weather location"),
        getOpts "London" []) ∧
    errText (.remote "Unable to find any matching weather location")
      = "Unable to find any matching weather location" :=
  get_error_signal.1 wwoK httpEmpty umLocalErr "London" []
    { Error := some "Unable to find any matching weather location" }
    "Unable to find any matching weather location" "" rfl rfl rfl

/-- C4: for every payload on which structural decoding fails
(`um text = (o, some e)`), each `Get<ReportType>` operation returns the
partially-filled non-nil report together with the non-nil decode
error. -/
theorem get_decode_failure :
    (∀ (w : WWO) (http : URL → Except String String)
        (um : String → Local × Option String) (loc : String) (m : GoMap)
        (o : Local) (e text : String),
      fetch w http "weather" (getOpts loc m) = .ok text →
      um text = (o, some e) →
      GetLocal w http um loc (some m) =
        .ok (some o, some (.decode e), getOpts loc m)) ∧
    (∀ (w : WWO) (http : URL → Except String String)
        (um : String → Marine × Option String) (loc : String) (m : GoMap)
        (o : Marine) (e text : String),
      fetch w http "marine" (getOpts loc m) = .ok text →
      um text = (o, some e) →
      GetMarine w http um loc (some m) =
        .ok (some o, some (.decode e), getOpts loc m)) ∧
    (∀ (w : WWO) (http : URL → Except String String)
        (um : String → Ski × Option String) (loc : String) (m : GoMap)
        (o : Ski) (e text : String),
      fetch w http "ski" (getOpts loc m) = .ok text →
      um text = (o, some e) →
      GetSki w http um loc (some m) =
        .ok (some o, some (.decode e), getOpts loc m)) ∧
    (∀ (w : WWO) (http : URL → Except String String)
        (um : String → PastLocal × Option String) (loc : String) (m : GoMap)
        (o : PastLocal) (e text : String),
      fetch w http "past-weather" (getOpts loc m) = .ok text →
      um text = (o, some e) →
      GetPastLocal w http um loc (some m) =
        .ok (some o, some (.decode e), getOpts loc m)) ∧
    (∀ (w : WWO) (http : URL → Except String String)
        (um : String → PastMarine × Option String) (loc : String) (m : GoMap)
        (o : PastMarine) (e text : String),
      fetch w http "past-marine" (getOpts loc m) = .ok text →
      um text = (o, some e) →
      GetPastMarine w http um loc (some m) =
        .ok (some o, some (.decode e), getOpts loc m)) ∧
    (∀ (w : WWO) (http : URL → Except String String)
        (um : String → Search × Option String) (loc : String) (m : GoMap)
        (o : Search) (e text : String),
      fetch w http "search" (getOpts loc m) = .ok text →
      um text = (o, some e) →
      GetSearch w http um loc (some m) =
        .ok (some o, some (.decode e), getOpts loc m)) ∧
    (∀ (w : WWO) (http : URL → Except String String)
        (um : String → TimeZone × Option String) (loc : String) (m : GoMap)
        (o : TimeZone) (e text : String),
      fetch w http "tz" (getOpts loc m) = .ok text →
      um text = (o, some e) →
      GetTimeZone w http um loc (some m) =
        .ok (some o, some (.decode e), getOpts loc m)) := by
  refine ⟨?_, ?_, ?_, ?_, ?_, ?_, ?_⟩ <;>
  · intro w http um loc m o e text hf hu
    exact getReportSteps_decodeFail _ w http um _ loc m o e text hf hu

/-- C4 witness: a structural decode failure after the request echo was
filled returns that partial report plus the decode error. -/
theorem get_decode_failure_witness :
    GetLocal wwoK httpEmpty umLocalBad "London" (some []) =
      .ok (some { Request := { Query := "partial" } },
        some (.decode "unexpected EOF"), getOpts "London" []) :=
  get_decode_failure.1 wwoK httpEmpty umLocalBad "London" []
    { Request := { Query := "partial" } } "unexpected EOF" "" rfl rfl

/-- C10: every `Get<ReportType>` panics (assignment to an entry in a nil
map) when the options map is nil, and never panics when it is
non-nil. -/
theorem get_nil_options_panics :
    ((∀ (w : WWO) (http : URL → Except String String)
        (um : String → Local × Option String) (loc : String),
      GetLocal w http um loc none = .error .assignToNilMap) ∧
     (∀ (w : WWO) (http : URL → Except String String)
        (um : String → Local × Option String) (loc : String) (m : GoMap),
      ∃ res, GetLocal w http um loc (some m) = .ok res)) ∧
    ((∀ (w : WWO) (http : URL → Except String String)
        (um : String → Marine × Option String) (loc : String),
      GetMarine w http um loc none = .error .assignToNilMap) ∧
     (∀ (w : WWO) (http : URL → Except String String)
        (um : String → Marine × Option String) (loc : String) (m : GoMap),
      ∃ res, GetMarine w http um loc (some m) = .ok res)) ∧
    ((∀ (w : WWO) (http : URL → Except String String)
        (um : String → Ski × Option String) (loc : String),
      GetSki w http um loc none = .error .assignToNilMap) ∧
     (∀ (w : WWO) (http : URL → Except String String)
        (um : String → Ski × Option String) (loc : String) (m : GoMap),
      ∃ res, GetSki w http um loc (some m) = .ok res)) ∧
    ((∀ (w : WWO) (http : URL → Except String String)
        (um : String → PastLocal × Option String) (loc : String),
      GetPastLocal w http um loc none = .error .assignToNilMap) ∧
     (∀ (w : WWO) (http : URL → Except String String)
        (um : String → PastLocal × Option String) (loc : String) (m : GoMap),
      ∃ res, GetPastLocal w http um loc (some m) = .ok res)) ∧
    ((∀ (w : WWO) (http : URL → Except String String)
        (um : String → PastMarine × Option String) (loc : String),
      GetPastMarine w http um loc none = .error .assignToNilMap) ∧
     (∀ (w : WWO) (http : URL → Except String String)
        (um : String → PastMarine × Option String) (loc : String) (m : GoMap),
      ∃ res, GetPastMarine w http um loc (some m) = .ok res)) ∧
    ((∀ (w : WWO) (http : URL → Except String String)
        (um : String → Search × Option String) (loc : String),
      GetSearch w http um loc none = .error .assignToNilMap) ∧
     (∀ (w : WWO) (http : URL → Except String String)
        (um : String → Search × Option String) (loc : String) (m : GoMap),
      ∃ res, GetSearch w http um loc (some m) = .ok res)) ∧
    ((∀ (w : WWO) (http : URL → Except String String)
        (um : String → TimeZone × Option String) (loc : String),
      GetTimeZone w http um loc none = .error .assignToNilMap) ∧
     (∀ (w : WWO) (http : URL → Except String String)
        (um : String → TimeZone × Option String) (loc : String) (m : GoMap),
      ∃ res, GetTimeZone w http um loc (some m) = .ok res)) := by
  refine ⟨?_, ?_, ?_, ?_, ?_, ?_, ?_⟩ <;>
  · constructor
    · intro w http um loc
      rfl
    · intro w http um loc m
      exact getReportSteps_total _ w http um _ loc m

/-- C2 counterexample: the code maps the valid clock string
`"12:00 AM"` not to the zero duration claimed by the standard
conversion but to the clock reading shifted down by the 366-day gap
between `time.Parse`'s default date and the zero time. -/
theorem time12_decode_counterexample :
    time12Unmarshal "12:00 AM" = (-31622400000000000, none) ∧
    (-31622400000000000 : Time12) ≠ 0 := by decide

/-- C2 (amended): the decoder maps every valid `H:MM AM|PM` string to
the standard 24-hour clock reading in nanoseconds minus `year0Gap`
(366 days), so that formatting the stored value back through `String()`
yields the standard zero-padded 24-hour `HH:MM`; and it maps every
string beginning `"No "` to the sentinel `-1`, which is not the zero
duration. -/
theorem time12_decode_amended :
    (∀ (h m : Nat) (ap : Bool), 1 ≤ h → h ≤ 12 → m ≤ 59 →
      time12Unmarshal (mk12 h m ap) =
        (((hour24 h ap * 3600 + m * 60 : Nat) : Int) * 1000000000 - year0Gap, none) ∧
      Time12.toClock (((hour24 h ap * 3600 + m * 60 : Nat) : Int) * 1000000000 - year0Gap)
        = ⟨padNum 2 (hour24 h ap) ++ ':' :: padNum 2 m⟩) ∧
    (∀ rest : String, time12Unmarshal ("No " ++ rest) = (-1, none)) ∧
    ((-1 : Time12) ≠ 0) := by
  refine ⟨?_, ?_, by decide⟩
  · intro h m ap h1 h2 hm
    have hb : hour24 h ap ≤ 23 := by
      unfold hour24; split <;> split <;> omega
    refine ⟨time12Unmarshal_clock h m ap h2 hm, ?_⟩
    show goClockFormat _ = _
    rw [goClockFormat_clock (hour24 h ap * 3600 + m * 60) (by omega)]
    rw [show (hour24 h ap * 3600 + m * 60) / 3600 = hour24 h ap by omega,
      show (hour24 h ap * 3600 + m * 60) % 3600 / 60 = m by omega]
  · intro rest
    unfold time12Unmarshal
    have hd : ("No " ++ rest).data = 'N' :: 'o' :: ' ' :: rest.data := by
      rw [String.data_append]; rfl
    rw [hd]
    rw [show List.isPrefixOf ['N', 'o', ' '] ('N' :: 'o' :: ' ' :: rest.data) = true
      from by simp [List.isPrefixOf]]
    simp

/-- C2 witness: `"3:04 PM"`, built as `mk12 3 4 true`, decodes to the
15:04 clock reading minus the epoch gap, and formats back to a
24-hour `HH:MM` string. -/
theorem time12_decode_witness :
    time12Unmarshal (mk12 3 4 true) =
      (((hour24 3 true * 3600 + 4 * 60 : Nat) : Int) * 1000000000 - year0Gap, none) ∧
    Time12.toClock (((hour24 3 true * 3600 + 4 * 60 : Nat) : Int) * 1000000000 - year0Gap)
      = ⟨padNum 2 (hour24 3 true) ++ ':' :: padNum 2 4⟩ :=
  time12_decode_amended.1 3 4 true (by decide) (by decide) (by decide)

/-- C3: every integer time encoding `v` in `[0, 2359]` with
`v % 100 < 60` decodes (from its decimal representation) to the
duration `(v / 100)` hours plus `(v % 100)` minutes, in nanoseconds,
with no error; `930` renders back as `09:30`, `0` as `00:00`, and
`2359` as `23:59`. -/
theorem timeHMM_decode :
    (∀ v : Nat, v ≤ 2359 → v % 100 < 60 →
      timeHMMUnmarshal (Nat.repr v) =
        ((((v / 100) * 3600000000000 + (v % 100) * 60000000000 : Nat) : Int),
          (none : Option String))) ∧
    TimeHMM.toClock (timeHMMUnmarshal "930").1 = "09:30" ∧
    TimeHMM.toClock (timeHMMUnmarshal "0").1 = "00:00" ∧
    TimeHMM.toClock (timeHMMUnmarshal "2359").1 = "23:59" := by
  refine ⟨?_, by decide, by decide, by decide⟩
  intro v h1 h2
  unfold timeHMMUnmarshal
  rw [repr_data, parseUint12_decChars v (by omega)]

/-- C3 witness: `930` decodes to nine and a half hours with no
error. -/
theorem timeHMM_decode_witness :
    timeHMMUnmarshal (Nat.repr 930) =
      ((((930 / 100) * 3600000000000 + (930 % 100) * 60000000000 : Nat) : Int),
        (none : Option String)) :=
  timeHMM_decode.1 930 (by decide) (by decide)

/-- C5 counterexample: with credential `"secret"` and a caller option
`key = evil`, the query values the transport receives carry
`key = evil`, not the client's credential — `values.Set("key", w.Key)`
runs before the caller options are merged, so a caller-supplied `key`
overrides it. -/
theorem fetch_key_override_counterexample :
    (fetchValues "secret" [("key", "evil")]).lookup "key" = some "evil" ∧
    (fetchValues "secret" [("key", "evil")]).lookup "key" ≠ some "secret" := by decide

/-- C5 (amended): the query values passed to the transport always carry
`format = xml` (set after the option loop, so it overrides any
caller-supplied `format`), and carry `key` equal to the client's
credential exactly when the options mapping supplies no `key` entry; a
caller-supplied `key` entry overrides the credential. -/
theorem fetch_query_credentials :
    ∀ (w : WWO) (q : GoMap), nodupKeys q →
      (fetchValues w.Key q).lookup "format" = some "xml" ∧
      (q.lookup "key" = none → (fetchValues w.Key q).lookup "key" = some w.Key) ∧
      (∀ v, q.lookup "key" = some v → (fetchValues w.Key q).lookup "key" = some v) := by
  intro w q hn
  refine ⟨lookup_setA_self _ _ _, ?_, ?_⟩
  · intro hnone
    unfold fetchValues
    rw [lookup_setA_ne _ _ _ _ (by decide), lookup_foldSet_of_none _ _ _ hnone,
      lookup_setA_self]
  · intro v hv
    unfold fetchValues
    rw [lookup_setA_ne _ _ _ _ (by decide), lookup_foldSet_of_some _ _ _ _ hn hv]

/-- C5 witness: with no caller options at all, the sent values carry the
fixed format and the credential. -/
theorem fetch_query_credentials_witness :
    (fetchValues wwoK.Key []).lookup "format" = some "xml" ∧
    (List.lookup "key" ([] : GoMap) = none →
      (fetchValues wwoK.Key []).lookup "key" = some wwoK.Key) ∧
    (∀ v, List.lookup "key" ([] : GoMap) = some v →
      (fetchValues wwoK.Key []).lookup "key" = some v) :=
  fetch_query_credentials wwoK [] trivial

/-- C6 counterexample: a `GetLocal` call on an empty options map leaves
the caller's map holding the `q` and `date_format` entries the
operation wrote into it — the map is not left unchanged. -/
theorem get_mutates_options_counterexample :
    (GetLocal wwoK httpDown (fun _ => ({}, none)) "London" (some [])).map
        (fun r => r.2.2) = .ok [("q", "London"), ("date_format", "")] ∧
    [("q", "London"), ("date_format", "")] ≠ ([] : GoMap) :=
  ⟨rfl, by decide⟩

/-- C6 (amended): beyond the outbound call, the only side effect of each
`Get<ReportType>` is the in-place mutation of the caller's options map:
the final map is exactly `getOpts location options`, which sets `q` to
the location and `date_format` to the empty string and leaves every
other entry unchanged. -/
theorem get_options_mutation :
    (∀ (w : WWO) (http : URL → Except String String)
        (um : String → Local × Option String) (loc : String) (m : GoMap),
      (GetLocal w http um loc (some m)).map (fun r => r.2.2) = .ok (getOpts loc m)) ∧
    (∀ (w : WWO) (http : URL → Except String String)
        (um : String → Marine × Option String) (loc : String) (m : GoMap),
      (GetMarine w http um loc (some m)).map (fun r => r.2.2) = .ok (getOpts loc m)) ∧
    (∀ (w : WWO) (http : URL → Except String String)
        (um : String → Ski × Option String) (loc : String) (m : GoMap),
      (GetSki w http um loc (some m)).map (fun r => r.2.2) = .ok (getOpts loc m)) ∧
    (∀ (w : WWO) (http : URL → Except String String)
        (um : String → PastLocal × Option String) (loc : String) (m : GoMap),
      (GetPastLocal w http um loc (some m)).map (fun r => r.2.2) = .ok (getOpts loc m)) ∧
    (∀ (w : WWO) (http : URL → Except String String)
        (um : String → PastMarine × Option String) (loc : String) (m : GoMap),
      (GetPastMarine w http um loc (some m)).map (fun r => r.2.2) = .ok (getOpts loc m)) ∧
    (∀ (w : WWO) (http : URL → Except String String)
        (um : String → Search × Option String) (loc : String) (m : GoMap),
      (GetSearch w http um loc (some m)).map (fun r => r.2.2) = .ok (getOpts loc m)) ∧
    (∀ (w : WWO) (http : URL → Except String String)
        (um : String → TimeZone × Option String) (loc : String) (m : GoMap),
      (GetTimeZone w http um loc (some m)).map (fun r => r.2.2) = .ok (getOpts loc m)) ∧
    (∀ (loc : String) (m : GoMap) (k : String), k ≠ "q" → k ≠ "date_format" →
      (getOpts loc m).lookup k = m.lookup k) ∧
    (∀ (loc : String) (m : GoMap),
      (getOpts loc m).lookup "q" = some loc ∧
      (getOpts loc m).lookup "date_format" = some "") := by
  refine ⟨fun w http um loc m => getReportSteps_state _ w http um _ loc m,
    fun w http um loc m => getReportSteps_state _ w http um _ loc m,
    fun w http um loc m => getReportSteps_state _ w http um _ loc m,
    fun w http um loc m => getReportSteps_state _ w http um _ loc m,
    fun w http um loc m => getReportSteps_state _ w http um _ loc m,
    fun w http um loc m => getReportSteps_state _ w http um _ loc m,
    fun w http um loc m => getReportSteps_state _ w http um _ loc m,
    ?_, ?_⟩
  · intro loc m k hq hdf
    unfold getOpts
    rw [lookup_setA_ne _ _ _ _ hdf, lookup_setA_ne _ _ _ _ hq]
  · intro loc m
    constructor
    · unfold getOpts
      rw [lookup_setA_ne _ _ _ _ (by decide), lookup_setA_self]
    · unfold getOpts
      rw [lookup_setA_self]

/-- C6 witness: an unrelated caller entry survives the mutation
unchanged. -/
theorem get_options_mutation_witness :
    (getOpts "London" [("fx", "no")]).lookup "fx" = [("fx", "no")].lookup "fx" :=
  get_options_mutation.2.2.2.2.2.2.2.1 "London" [("fx", "no")] "fx"
    (by decide) (by decide)

/-- C7 counterexample: a payload carrying `maxtempC = 0` alongside
`maxtempF = 100` decodes to a `TempRange` whose two maxima do not agree
under the Celsius-to-Fahrenheit conversion — the fields are decoded
independently, not converted once from one value. -/
theorem tempRange_drift_counterexample :
    (decodeTempRange tempFieldsDrift).MaxTemp = 0 ∧
    (decodeTempRange tempFieldsDrift).MaxTempF = 100 ∧
    (decodeTempRange tempFieldsDrift).MaxTempF ≠
      (decodeTempRange tempFieldsDrift).MaxTemp * 9 / 5 + 32 := by decide

/-- C7 (amended): each of the four temperature fields of a decoded
`TempRange` is sourced solely from its own payload field (`maxtempC`,
`maxtempF`, `mintempC`, `mintempF`) — a field's value depends only on
that payload entry, and an absent entry decodes to zero; the decoder
never derives one unit from the other. -/
theorem tempRange_independent_fields :
    (∀ f g : String → Option Int, f "maxtempC" = g "maxtempC" →
      (decodeTempRange f).MaxTemp = (decodeTempRange g).MaxTemp) ∧
    (∀ f g : String → Option Int, f "maxtempF" = g "maxtempF" →
      (decodeTempRange f).MaxTempF = (decodeTempRange g).MaxTempF) ∧
    (∀ f g : String → Option Int, f "mintempC" = g "mintempC" →
      (decodeTempRange f).MinTemp = (decodeTempRange g).MinTemp) ∧
    (∀ f g : String → Option Int, f "mintempF" = g "mintempF" →
      (decodeTempRange f).MinTempF = (decodeTempRange g).MinTempF) ∧
    (∀ f : String → Option Int, f "maxtempC" = none →
      (decodeTempRange f).MaxTemp = 0) ∧
    (∀ f : String → Option Int, f "maxtempF" = none →
      (decodeTempRange f).MaxTempF = 0) :=
  ⟨fun f g h => by simp [decodeTempRange, h],
   fun f g h => by simp [decodeTempRange, h],
   fun f g h => by simp [decodeTempRange, h],
   fun f g h => by simp [decodeTempRange, h],
   fun f h => by simp [decodeTempRange, h],
   fun f h => by simp [decodeTempRange, h]⟩

/-- C7 witness: two payload assignments agreeing on `maxtempC` decode to
the same Celsius maximum, whatever else they carry. -/
theorem tempRange_independent_fields_witness :
    (decodeTempRange tempFieldsDrift).MaxTemp =
      (decodeTempRange (fun t => if t = "maxtempC" then some 0 else none)).MaxTemp :=
  tempRange_independent_fields.1 tempFieldsDrift
    (fun t => if t = "maxtempC" then some 0 else none) rfl

/-- C8: the query values every `Get<ReportType>` hands to the transport
(through `getOpts` and then `fetch`) carry `q` equal to the `location`
argument — overwriting any caller-supplied `q` — and `date_format`
equal to the empty string, whatever the caller supplied. -/
theorem get_sends_location_query :
    ∀ (w : WWO) (loc : String) (m : GoMap), nodupKeys m →
      (fetchValues w.Key (getOpts loc m)).lookup "q" = some loc ∧
      (fetchValues w.Key (getOpts loc m)).lookup "date_format" = some "" := by
  intro w loc m hn
  have hn2 : nodupKeys (getOpts loc m) := nodupKeys_setA _ _ (nodupKeys_setA _ _ hn)
  have hq : (getOpts loc m).lookup "q" = some loc := by
    unfold getOpts
    rw [lookup_setA_ne _ _ _ _ (by decide), lookup_setA_self]
  have hdf : (getOpts loc m).lookup "date_format" = some "" := by
    unfold getOpts
    rw [lookup_setA_self]
  constructor
  · unfold fetchValues
    rw [lookup_setA_ne _ _ _ _ (by decide), lookup_foldSet_of_some _ _ _ _ hn2 hq]
  · unfold fetchValues
    rw [lookup_setA_ne _ _ _ _ (by decide), lookup_foldSet_of_some _ _ _ _ hn2 hdf]

/-- C8 witness: a caller-supplied `q = Paris` is overridden by the
`location` argument `London`, and `date_format` is sent empty. -/
theorem get_sends_location_query_witness :
    (fetchValues wwoK.Key (getOpts "London" [("q", "Paris")])).lookup "q"
      = some "London" ∧
    (fetchValues wwoK.Key (getOpts "London" [("q", "Paris")])).lookup "date_format"
      = some "" :=
  get_sends_location_query wwoK "London" [("q", "Paris")] (by decide)

/-- C9: every calendar date string the `Date` decoder accepts is
reproduced exactly by reformatting the decoded value — decode followed
by `String()` is the identity. -/
theorem date_decode_format :
    ∀ (s : String) (d : Date), dateUnmarshal s = (d, none) → d.format = s := by
  intro s d h
  unfold dateUnmarshal at h
  cases hp : parseDate s.data with
  | none => rw [hp] at h; simp at h
  | some d' =>
    rw [hp] at h
    simp only [Prod.mk.injEq, and_true] at h
    subst h
    exact parseDate_format hp

/-- C9 witness: the leap-year date `2024-02-29` decodes and reformats to
itself. -/
theorem date_decode_format_witness :
    dateUnmarshal "2024-02-29" = (⟨2024, 2, 29⟩, none) ∧
    Date.format ⟨2024, 2, 29⟩ = "2024-02-29" :=
  ⟨by decide, date_decode_format "2024-02-29" ⟨2024, 2, 29⟩ (by decide)⟩

end Wwo
